import Mathlib

/-!
A shallow embedding of the Telescope selector-file parsing pipeline
(`telescope/selector.py`) together with theorems about its behaviour.

The selector pipeline is pure: it decodes a JSON document (decoding itself
is out of scope), validates it against a schema version, and expands the
list-valued fields into a cross product of `Selector` records.  We embed
the decoded document as an association list of string keys to `JValue`s,
errors as an explicit `TError` type (modelling both the `ValueError(msg)`
values raised by the source and Python's untyped `KeyError`), and every
fallible source function as a Lean function into `Except TError`.
-/

/-- Decoded JSON values, the result of `json.loads` on the selector file.
A number literal is kept as the exact decimal `m * 10^(-e)` it was
written as.  The only numeric comparisons the source performs are
equality tests of `file_format_version` against the float literals `1.0`
and `1.1`; at that scale distinct short decimals round to distinct
doubles, so comparing exact decimal values is faithful.  Objects are
association lists with distinct keys (JSON objects). -/
inductive JValue where
  | jnull : JValue
  | jbool : Bool → JValue
  | jnum : ℤ → ℕ → JValue
  | jstr : String → JValue
  | jlist : List JValue → JValue
  | jobj : List (String × JValue) → JValue

/-- Errors of the pipeline.  Constructors named after the spec's error
taxonomy; each comment gives the literal message string the source raises
with `ValueError`.  `KeyError` models Python's untyped `KeyError` (carrying
the offending key), and `TypeMismatch` models Python `TypeError`s from
operating on a value of the wrong dynamic type. -/
inductive TError where
  | NoVersionSpecified : TError          -- 'NoSelectorVersionSpecified'
  | DeprecatedVersion : TError           -- 'DeprecatedSelectorVersion'
  | UnsupportedVersion : TError          -- 'UnsupportedSelectorVersion'
  | MissingDuration : TError             -- 'UnsupportedDuration'
  | MetricsMustBeList : TError           -- 'MetricsRequiresList'
  | UnsupportedMetric : TError           -- 'UnsupportedMetric'
  | SubsetsNoLongerSupported : TError    -- 'SubsetsNoLongerSupported'
  | NoDurationSpecified : TError         -- 'UnsupportedSelectorDuration'
  | UnsupportedDurationUnit : TError     -- 'UnsupportedSelectorDurationType'
  | UnsupportedTimestampFormat : TError  -- 'UnsupportedSubsetDateFormat'
  | MissingIpTranslationField : String → TError  -- 'Missing expected field in ip_translation dict: ...'
  | KeyError : String → TError           -- Python KeyError(key) with a string key
  | KeyErrorOther : TError               -- Python KeyError whose key is not a string
  | TypeMismatch : TError                -- Python TypeError
  | OverflowError : TError               -- Python OverflowError (timedelta bound, int-to-float conversion)
  deriving DecidableEq                -- Python TypeError

/-- Exception-propagating sequencing (Python: evaluate the first
expression; an uncaught exception aborts, otherwise continue with its
value).  This is exactly `Except.bind`, written out so that every
definition sequences through one constant. -/
def ebind {ε α β : Type} (x : Except ε α) (f : α → Except ε β) : Except ε β :=
  match x with
  | .error e => .error e
  | .ok a => f a

theorem ebind_ok {ε α β : Type} {x : Except ε α} {f : α → Except ε β} {b : β}
    (h : ebind x f = .ok b) : ∃ a, x = .ok a ∧ f a = .ok b := by
  cases x with
  | error e => exact absurd h (fun hh => Except.noConfusion hh)
  | ok a => exact ⟨a, rfl, h⟩

@[simp] theorem ebind_okv {ε α β : Type} (a : α) (f : α → Except ε β) :
    ebind (ε := ε) (.ok a) f = f a := rfl

@[simp] theorem ebind_errv {ε α β : Type} (e : ε) (f : α → Except ε β) :
    ebind (ε := ε) (.error e) f = .error e := rfl

instance {ε α : Type} [DecidableEq ε] [DecidableEq α] : DecidableEq (Except ε α) := fun x y =>
  match x, y with
  | .ok a, .ok b =>
    if h : a = b then .isTrue (by rw [h]) else .isFalse (fun hh => h (Except.ok.inj hh))
  | .error a, .error b =>
    if h : a = b then .isTrue (by rw [h]) else .isFalse (fun hh => h (Except.error.inj hh))
  | .ok _, .error _ => .isFalse (fun hh => Except.noConfusion hh)
  | .error _, .ok _ => .isFalse (fun hh => Except.noConfusion hh)

/-- A Python number: an `int` (arbitrary precision), a finite `float`, or
the float `inf`.  Every finite float arising in this code is
integer-valued: each `timedelta(...).total_seconds()` is an exact integer
below `2^53` (the timedelta bound keeps it below `8.64 * 10^13`), and
rounding an integer sum to a double yields an integer again (every double
at or above `2^52` is an integer, and smaller sums are exact) — so finite
floats are carried as their exact integer value. -/
inductive PyNum where
  | pint : ℤ → PyNum
  | pfloat : ℤ → PyNum
  | pinf : PyNum
  deriving DecidableEq

/-- Round `n` down or up to a multiple of `2 ^ e`, to nearest with ties
to the even multiple. -/
def roundAtExp (n : ℕ) (e : ℕ) : ℕ :=
  let q := n / 2 ^ e
  let r := n % 2 ^ e
  if 2 ^ e < 2 * r then (q + 1) * 2 ^ e
  else if 2 * r < 2 ^ e then q * 2 ^ e
  else if q % 2 = 0 then q * 2 ^ e else (q + 1) * 2 ^ e

/-- The least `e` with `n < 2 ^ (53 + e)`, by fuel-bounded halving; the
fuel suffices for every `n < 2 ^ 1024`, the only range the caller asks
about. -/
def floatExpAux : ℕ → ℕ → ℕ
  | 0, _ => 0
  | fuel + 1, n => if n < 2 ^ 53 then 0 else floatExpAux fuel (n / 2) + 1

/-- Correct IEEE-754 binary64 rounding of an integer: exact below
`2 ^ 53`; above, the value is rounded at the granularity of its 53-bit
significand, ties to even; `none` when the rounded magnitude reaches
`2 ^ 1024`, i.e. the value does not fit a finite double (CPython:
`OverflowError` when converting an int, `inf` from float addition). -/
def roundDouble (n : ℤ) : Option ℤ :=
  if n.natAbs < 2 ^ 53 then some n
  else if 2 ^ 1024 ≤ n.natAbs then none
  else
    let r := roundAtExp n.natAbs (floatExpAux 1024 n.natAbs)
    if (2 ^ 53 - 1) * 2 ^ 971 < r then none else some (n.sign * r)

/-- CPython float addition of two finite integer-valued doubles: the
exact sum is rounded to the nearest double; on overflow the result is
`inf` (float addition raises no exception). -/
def addDouble (a b : ℤ) : PyNum :=
  match roundDouble (a + b) with
  | some v => .pfloat v
  | none => .pinf

/-- Python `+` on numbers: `int + int` is exact; a mixed addition first
converts the int operand to a double — raising `OverflowError` (`none`)
when it exceeds the finite double range — and then adds doubles; `inf`
absorbs every finite addend. -/
def PyNum.add : PyNum → PyNum → Option PyNum
  | .pint a, .pint b => some (.pint (a + b))
  | .pint a, .pfloat b =>
    match roundDouble a with
    | some ad => some (addDouble ad b)
    | none => none
  | .pfloat a, .pint b =>
    match roundDouble b with
    | some bd => some (addDouble a bd)
    | none => none
  | .pfloat a, .pfloat b => some (addDouble a b)
  | .pint a, .pinf =>
    match roundDouble a with
    | some _ => some .pinf
    | none => none
  | .pinf, .pint b =>
    match roundDouble b with
    | some _ => some .pinf
    | none => none
  | .pfloat _, .pinf => some .pinf
  | .pinf, .pfloat _ => some .pinf
  | .pinf, .pinf => some .pinf

/-- The numeric value of a Python number.  The infinite float carries no
integer value; the theorems below only inspect `val` under bounds that
keep every number finite. -/
def PyNum.val : PyNum → ℤ
  | .pint a => a
  | .pfloat q => q
  | .pinf => 0

/-- Whether a Python number has type `int`. -/
def PyNum.isInt : PyNum → Bool
  | .pint _ => true
  | _ => false

/-- Whether a Python number is the infinite float. -/
def PyNum.isInf : PyNum → Bool
  | .pinf => true
  | _ => false

/-- Look a key up in a decoded JSON object (Python `d[k]` / `d.has_key(k)`
on a dict with the object's keys). -/
def jlookup (fields : List (String × JValue)) (k : String) : Option JValue :=
  fields.lookup k

/-- `SelectorFileParser.supported_metrics`: the fixed metric → BigQuery
project table. -/
def supported_metrics : List (String × String) :=
  [("download_throughput", "ndt"),
   ("upload_throughput", "ndt"),
   ("minimum_rtt", "ndt"),
   ("average_rtt", "ndt"),
   ("packet_retransmit_rate", "ndt")]

/-- Python `metric in supported_metrics`: membership in the dict's key set.
A non-string JSON value is never equal to a string key. -/
def isSupportedMetric : JValue → Bool
  | .jstr s => (supported_metrics.lookup s).isSome
  | _ => false

/-! ## Duration parsing (`SelectorFileParser._parse_duration`) -/

/-- Is `c` an ASCII digit (regex class `[0-9]`)? -/
def isDigitChar (c : Char) : Bool := 48 ≤ c.toNat ∧ c.toNat ≤ 57

/-- Is `c` an ASCII letter (regex class `[a-zA-Z]`)? -/
def isLetterChar (c : Char) : Bool :=
  (97 ≤ c.toNat ∧ c.toNat ≤ 122) ∨ (65 ≤ c.toNat ∧ c.toNat ≤ 90)

/-- Numeric value of a digit character. -/
def digitVal (c : Char) : ℕ := c.toNat - 48

/-- `int(...)` of a non-empty decimal digit run. -/
def natOfDigits (ds : List Char) : ℕ :=
  ds.foldl (fun acc c => 10 * acc + digitVal c) 0

/-- `re.findall('[0-9]+[a-zA-Z]+', s)`, with each match already split into
its digit run and its letter run (the source re-derives the two runs with
`re.search('[0-9]+', segment)` and `re.search('[a-zA-Z]+', segment)`, which
on a digits-then-letters segment yield exactly those runs).  The regex
scanner finds leftmost non-overlapping matches: a match takes a maximal
digit run followed by a maximal letter run; a digit run not followed by a
letter cannot start a match anywhere inside it, so the scan resumes after
it. -/
def findallAux : ℕ → List Char → List (ℕ × String)
  | 0, _ => []
  | _ + 1, [] => []
  | fuel + 1, c :: rest =>
    if isDigitChar c then
      let afterDigits := List.dropWhile isDigitChar (c :: rest)
      let letters := List.takeWhile isLetterChar afterDigits
      if letters.isEmpty then
        findallAux fuel afterDigits
      else
        (natOfDigits (List.takeWhile isDigitChar (c :: rest)),
         String.mk letters) :: findallAux fuel (List.dropWhile isLetterChar afterDigits)
    else
      findallAux fuel rest

/-- `findallAux` with enough fuel: each step consumes at least one
character, so fuel equal to the length of the input always suffices. -/
def findall_segments (cs : List Char) : List (ℕ × String) :=
  findallAux cs.length cs

/-- Seconds contributed by one segment.  `d`, `h`, `m` construct a
`datetime.timedelta`, which requires its normalized day count to stay
within `999999999` days — hence `days <= 999999999`,
`hours <= 23999999999`, `minutes <= 1439999999999`; a larger amount
raises `OverflowError` before any addition.  Within those bounds
`total_seconds()` is an exactly representable integer-valued float
(below `8.64 * 10^13 < 2^53`).  An `s` segment contributes the plain
int.  An unrecognized unit raises the unsupported-unit `ValueError`
(the unit is dispatched before any timedelta is built). -/
def segmentValue : ℕ × String → Except TError PyNum
  | (n, u) =>
    if u = "d" then
      if n ≤ 999999999 then .ok (.pfloat ((n : ℤ) * 86400)) else .error .OverflowError
    else if u = "h" then
      if n ≤ 23999999999 then .ok (.pfloat ((n : ℤ) * 3600)) else .error .OverflowError
    else if u = "m" then
      if n ≤ 1439999999999 then .ok (.pfloat ((n : ℤ) * 60)) else .error .OverflowError
    else if u = "s" then .ok (.pint (n : ℤ))
    else .error .UnsupportedDurationUnit

/-- The accumulation loop over the found segments, starting from the
current accumulator (the source starts from the int `0`).  Each step
evaluates the segment (possible `ValueError`/`OverflowError`), then adds
it to the accumulator (possible `OverflowError` from int-to-float
conversion). -/
def durationFold : List (ℕ × String) → PyNum → Except TError PyNum
  | [], acc => .ok acc
  | seg :: rest, acc =>
    match segmentValue seg with
    | .error e => .error e
    | .ok v =>
      match acc.add v with
      | some acc2 => durationFold rest acc2
      | none => .error .OverflowError

/-- `SelectorFileParser._parse_duration`. -/
def parse_duration (s : String) : Except TError PyNum :=
  let segs := findall_segments s.data
  if segs.isEmpty then .error .NoDurationSpecified
  else durationFold segs (.pint 0)

/-! ## Timestamp parsing (`SelectorFileParser._parse_start_time`)

The source calls `datetime.datetime.strptime(s, '%Y-%m-%dT%H:%M:%SZ')`.
Python 2.7's `_strptime` compiles the format to a regex with `IGNORECASE`
(so the literals `T` and `Z` also match `t` and `z`), anchored at the
start and required to consume the whole string, with these field
patterns: `%Y = \d\d\d\d`, `%m = 1[0-2]|0[1-9]|[1-9]`,
`%d = 3[01]|[12]\d|0[1-9]|[1-9]`, `%H = 2[0-3]|[0-1]\d|\d`,
`%M = [0-5]\d|\d`, `%S = 6[0-1]|[0-5]\d|\d` — each numeric field accepts
one or two digits.  Because every field is followed by a non-digit
literal, the regex backtracking never changes the greedy two-digit-first
choice: a two-digit alternative requires the second character to be a
digit, while the one-digit alternative requires it to be the following
literal.  The matched numbers are then passed to the `datetime`
constructor, whose range check (year 1..9999, valid calendar day,
second 0..59) raises `ValueError`, caught by the same handler. -/

/-- A naive `datetime` as produced by `strptime`. -/
structure NaiveDateTime where
  year : ℕ
  month : ℕ
  day : ℕ
  hour : ℕ
  minute : ℕ
  second : ℕ
  deriving DecidableEq

/-- A timezone-aware `datetime`: a naive datetime plus an explicit UTC
offset in minutes. -/
structure AwareDateTime where
  naive : NaiveDateTime
  utcOffsetMinutes : ℤ
  deriving DecidableEq

/-- Modelled from the spec: `utils.make_datetime_utc_aware` lives in
`utils.py`, which is not among the given sources (only its unrelated
`strip_special_chars` is exercised by `utils_test.py`).  Per the spec, the
result of timestamp parsing "always carries explicit UTC offset zero", so
the function attaches a UTC (offset-zero) timezone to the naive value. -/
def make_datetime_utc_aware (t : NaiveDateTime) : AwareDateTime := ⟨t, 0⟩

/-- `%Y`: exactly four digits. -/
def read4Digits : List Char → Option (ℕ × List Char)
  | c1 :: c2 :: c3 :: c4 :: rest =>
    if isDigitChar c1 && isDigitChar c2 && isDigitChar c3 && isDigitChar c4 then
      some ((((digitVal c1) * 10 + digitVal c2) * 10 + digitVal c3) * 10 + digitVal c4, rest)
    else none
  | _ => none

/-- A literal character of the format. -/
def readLit (target : Char) : List Char → Option (List Char)
  | c :: rest => if c = target then some rest else none
  | [] => none

/-- A literal letter, matched case-insensitively (`re.IGNORECASE`). -/
def readLitCI (lower upper : Char) : List Char → Option (List Char)
  | c :: rest => if c = lower ∨ c = upper then some rest else none
  | [] => none

/-- A one-or-two-digit numeric field.  A two-digit parse is taken iff both
characters are digits and the value lies in `[lo2, hi2]`; otherwise a
single digit is taken, required to be nonzero when `zeroOne = false`
(patterns whose one-digit alternative is `[1-9]` rather than `\d`). -/
def readField (lo2 hi2 : ℕ) (zeroOne : Bool) : List Char → Option (ℕ × List Char)
  | c1 :: c2 :: rest =>
    if isDigitChar c1 && isDigitChar c2 then
      let v := 10 * digitVal c1 + digitVal c2
      if lo2 ≤ v ∧ v ≤ hi2 then some (v, rest) else none
    else if isDigitChar c1 && (zeroOne || decide (1 ≤ digitVal c1)) then
      some (digitVal c1, c2 :: rest)
    else none
  | [c1] =>
    if isDigitChar c1 && (zeroOne || decide (1 ≤ digitVal c1)) then some (digitVal c1, [])
    else none
  | [] => none

/-- The whole-string regex match for `'%Y-%m-%dT%H:%M:%SZ'`. -/
def strptimeTs (cs : List Char) : Option NaiveDateTime :=
  match read4Digits cs with
  | none => none
  | some (y, cs) =>
    match readLit '-' cs with
    | none => none
    | some cs =>
      match readField 1 12 false cs with
      | none => none
      | some (mo, cs) =>
        match readLit '-' cs with
        | none => none
        | some cs =>
          match readField 1 31 false cs with
          | none => none
          | some (dd, cs) =>
            match readLitCI 't' 'T' cs with
            | none => none
            | some cs =>
              match readField 0 23 true cs with
              | none => none
              | some (h, cs) =>
                match readLit ':' cs with
                | none => none
                | some cs =>
                  match readField 0 59 true cs with
                  | none => none
                  | some (mi, cs) =>
                    match readLit ':' cs with
                    | none => none
                    | some cs =>
                      match readField 0 61 true cs with
                      | none => none
                      | some (sec, cs) =>
                        match readLitCI 'z' 'Z' cs with
                        | none => none
                        | some cs =>
                          if cs.isEmpty then some ⟨y, mo, dd, h, mi, sec⟩ else none

/-- Gregorian leap year, as `calendar.isleap` / the `datetime` module. -/
def isLeapYear (y : ℕ) : Bool := (y % 4 = 0 ∧ y % 100 ≠ 0) ∨ y % 400 = 0

/-- Days in a month of a year, as the `datetime` module. -/
def daysInMonth (y m : ℕ) : ℕ :=
  if m = 2 then (if isLeapYear y then 29 else 28)
  else if m = 4 ∨ m = 6 ∨ m = 9 ∨ m = 11 then 30
  else 31

/-- The range check of the `datetime(year, month, day, hour, minute,
second)` constructor. -/
def datetimeValid (t : NaiveDateTime) : Bool :=
  1 ≤ t.year ∧ t.year ≤ 9999 ∧ 1 ≤ t.month ∧ t.month ≤ 12 ∧
    1 ≤ t.day ∧ t.day ≤ daysInMonth t.year t.month ∧
    t.hour ≤ 23 ∧ t.minute ≤ 59 ∧ t.second ≤ 59

/-- `SelectorFileParser._parse_start_time`: `strptime` with the fixed
format, then `utils.make_datetime_utc_aware`; any `ValueError` (failed
match or out-of-range constructor argument) is mapped to the single
timestamp format error. -/
def parse_start_time (s : String) : Except TError AwareDateTime :=
  match strptimeTs s.data with
  | some t =>
    if datetimeValid t then .ok (make_datetime_utc_aware t)
    else .error .UnsupportedTimestampFormat
  | none => .error .UnsupportedTimestampFormat

example :
    parse_start_time "2014-06-01T00:00:00Z" = .ok ⟨⟨2014, 6, 1, 0, 0, 0⟩, 0⟩ := by decide
example :
    parse_start_time "2014-06-01 00:00:00" = .error .UnsupportedTimestampFormat := by decide
example :
    parse_start_time "2014-6-01T00:00:00Z" = .ok ⟨⟨2014, 6, 1, 0, 0, 0⟩, 0⟩ := by decide
example :
    parse_start_time "2014-06-01T00:00:00" = .error .UnsupportedTimestampFormat := by decide
example :
    parse_start_time "2014-02-30T00:00:00Z" = .error .UnsupportedTimestampFormat := by decide
example :
    parse_start_time "2014-06-01t00:00:00z" = .ok ⟨⟨2014, 6, 1, 0, 0, 0⟩, 0⟩ := by decide

/-! ## IP translation (`SelectorFileParser._parse_ip_translation`) -/

/-- `iptranslation.IPTranslationStrategySpec` holds a strategy name and a
parameter mapping.  (The source assigns these fields onto a shared class
object instead of constructing a fresh instance — the defect noted in the
spec; the values produced are the same, so the record is modelled as a
fresh value.) -/
structure IPTranslationStrategySpec where
  strategy_name : JValue
  params : JValue

/-- `SelectorFileParser._parse_ip_translation`: both `strategy` and
`params` must be present; a missing key's `KeyError` is re-raised as a
`ValueError` naming the field.  Indexing a non-dict raises `TypeError`. -/
def parse_ip_translation : JValue → Except TError IPTranslationStrategySpec
  | .jobj fields =>
    match jlookup fields "strategy" with
    | none => .error (.MissingIpTranslationField "strategy")
    | some st =>
      match jlookup fields "params" with
      | none => .error (.MissingIpTranslationField "params")
      | some p => .ok ⟨st, p⟩
  | _ => .error .TypeMismatch

/-! ## Validation (`SelectorFileParser._validate_selector_input` and the
`SelectorFileValidator` family) -/

/-- `10 ^ e` as an integer, by structural recursion so that it always
evaluates. -/
def pow10 : ℕ → ℤ
  | 0 => 1
  | e + 1 => 10 * pow10 e

/-- Python `==` between a JSON value and the float literal `m * 10^(-e)`:
numbers compare by value (cross-multiplied exact decimals), and booleans
compare as `1`/`0` (Python bools are ints); other types are never equal
to a number. -/
def pyEqNum (v : JValue) (m : ℤ) (e : ℕ) : Bool :=
  match v with
  | .jnum m2 e2 => m2 * pow10 e = m * pow10 e2
  | .jbool b => (if b then (1 : ℤ) else 0) * pow10 e = m
  | _ => false

/-- `SelectorFileValidator.validate_common`: `duration` must be present;
`metrics` must be present and a list; every metric must be supported. -/
def validate_common (d : List (String × JValue)) : Except TError Unit :=
  if (jlookup d "duration").isNone then .error .MissingDuration
  else
    match jlookup d "metrics" with
    | some (.jlist ms) =>
      if ms.all isSupportedMetric then .ok () else .error .UnsupportedMetric
    | _ => .error .MetricsMustBeList

/-- `SelectorFileValidator1_1.validate`: common validation first, then the
`subsets` field must be absent. -/
def validate_1_1 (d : List (String × JValue)) : Except TError Unit :=
  ebind (validate_common d) fun _ =>
    if (jlookup d "subsets").isSome then .error .SubsetsNoLongerSupported
    else .ok ()

/-- `SelectorFileParser._validate_selector_input`: dispatch on
`file_format_version` (`1.0` deprecated, `1.1` validated, others
unsupported). -/
def validate_selector_input (d : List (String × JValue)) : Except TError Unit :=
  match jlookup d "file_format_version" with
  | none => .error .NoVersionSpecified
  | some v =>
    if pyEqNum v 10 1 then .error .DeprecatedVersion
    else if pyEqNum v 11 1 then validate_1_1 d
    else .error .UnsupportedVersion

/-! ## Expansion (`SelectorFileParser._parse_input_for_selectors`) -/

/-- A `Selector` record (spec name: SelectionRecord), with the fields the
expansion loop fills in. -/
structure Selector where
  start_time : AwareDateTime
  duration : PyNum
  metric : JValue
  ip_translation_spec : IPTranslationStrategySpec
  client_provider : JValue
  site : JValue
  mlab_project : String

/-- Python `d[k]` on the document dict: the value, or `KeyError(k)`. -/
def keyLookup (d : List (String × JValue)) (k : String) : Except TError JValue :=
  match jlookup d k with
  | some v => .ok v
  | none => .error (.KeyError k)

/-- The sequence of elements `itertools.product` draws from one argument:
a list yields its elements; a string is iterable and yields its
characters as one-character strings.  Other values are modelled as
`TypeError` (a dict would actually yield its keys in hash order; no field
of any document considered here is a number-, bool-, null- or
dict-valued axis). -/
def pyIterate : JValue → Except TError (List JValue)
  | .jlist xs => .ok xs
  | .jstr s => .ok (s.data.map fun c => .jstr (String.mk [c]))
  | _ => .error .TypeMismatch

/-- `itertools.product(as, bs, cs, ds)`: nested iteration with the first
argument outermost and the last innermost. -/
def product4 {α β γ δ : Type} (as : List α) (bs : List β) (cs : List γ) (ds : List δ) :
    List (α × β × γ × δ) :=
  as.flatMap fun a => bs.flatMap fun b => cs.flatMap fun c => ds.map fun d => (a, b, c, d)

/-- `SelectorFileParser._parse_duration` applied to a JSON value:
`re.findall` over a non-string raises `TypeError`. -/
def parse_duration_j : JValue → Except TError PyNum
  | .jstr s => parse_duration s
  | _ => .error .TypeMismatch

/-- `SelectorFileParser._parse_start_time` applied to a JSON value:
`strptime` of a non-string raises `TypeError`. -/
def parse_start_time_j : JValue → Except TError AwareDateTime
  | .jstr s => parse_start_time s
  | _ => .error .TypeMismatch

/-- `SelectorFileParser.supported_metrics[metric]`: dict indexing, raising
`KeyError` on a missing (or non-string) key. -/
def metricProject : JValue → Except TError String
  | .jstr m =>
    match supported_metrics.lookup m with
    | some p => .ok p
    | none => .error (.KeyError m)
  | _ => .error .KeyErrorOther

/-- The body of the expansion loop, iterated over the cross product, in
source order: look up and parse `ip_translation`, look up and parse
`duration`, parse the start time, copy the axis values, look the metric
up in `supported_metrics`.  Besides the records the function counts, for
the completed iterations, the calls made to `_parse_ip_translation` and
to `_parse_duration` — one each per iteration — so that re-parsing can be
stated. -/
def expandLoop (d : List (String × JValue)) :
    List (JValue × JValue × JValue × JValue) → Except TError (List Selector × ℕ × ℕ)
  | [] => .ok ([], 0, 0)
  | (st, cp, site, metric) :: rest =>
    ebind (keyLookup d "ip_translation") fun ipRaw =>
    ebind (parse_ip_translation ipRaw) fun ip =>
    ebind (keyLookup d "duration") fun durRaw =>
    ebind (parse_duration_j durRaw) fun dur =>
    ebind (parse_start_time_j st) fun t =>
    ebind (metricProject metric) fun proj =>
    ebind (expandLoop d rest) fun acc =>
    .ok (⟨t, dur, metric, ip, cp, site, proj⟩ :: acc.1, acc.2.1 + 1, acc.2.2 + 1)

/-- `SelectorFileParser._parse_input_for_selectors`, with the call
counters of `expandLoop` kept: the four axis fields are looked up first,
then `itertools.product` consumes them left to right, then the loop
runs. -/
def parse_input_full (d : List (String × JValue)) :
    Except TError (List Selector × ℕ × ℕ) :=
  ebind (keyLookup d "start_times") fun stsJ =>
  ebind (keyLookup d "client_providers") fun cpsJ =>
  ebind (keyLookup d "sites") fun sitesJ =>
  ebind (keyLookup d "metrics") fun metricsJ =>
  ebind (pyIterate stsJ) fun sts =>
  ebind (pyIterate cpsJ) fun cps =>
  ebind (pyIterate sitesJ) fun sites =>
  ebind (pyIterate metricsJ) fun metrics =>
  expandLoop d (product4 sts cps sites metrics)

/-- `SelectorFileParser._parse_input_for_selectors`: the produced list of
`Selector` records. -/
def parse_input_for_selectors (d : List (String × JValue)) :
    Except TError (List Selector) :=
  ebind (parse_input_full d) fun acc => .ok acc.1

/-- `SelectorFileParser._parse_file_contents` after `json.loads`
(decoding itself is out of scope): validate, then expand. -/
def parse_file_contents (d : List (String × JValue)) :
    Except TError (List Selector) :=
  ebind (validate_selector_input d) fun _ => parse_input_for_selectors d

/-- The spec's end-to-end example document (§8). -/
def exampleDoc : List (String × JValue) :=
  [("file_format_version", .jnum 11 1),
   ("duration", .jstr "7d"),
   ("metrics", .jlist [.jstr "minimum_rtt"]),
   ("ip_translation", .jobj [("strategy", .jstr "maxmind"), ("params", .jobj [])]),
   ("start_times", .jlist [.jstr "2014-01-01T00:00:00Z"]),
   ("client_providers", .jlist [.jstr "comcast"]),
   ("sites", .jlist [.jstr "lga01"])]

example : validate_selector_input exampleDoc = .ok () := by decide
example :
    parse_file_contents exampleDoc =
      .ok [{ start_time := ⟨⟨2014, 1, 1, 0, 0, 0⟩, 0⟩
             duration := .pfloat 604800
             metric := .jstr "minimum_rtt"
             ip_translation_spec := ⟨.jstr "maxmind", .jobj []⟩
             client_provider := .jstr "comcast"
             site := .jstr "lga01"
             mlab_project := "ndt" }] := rfl

/-! ## Helper lemmas about the expansion loop -/

/-- The shared `ip_translation` input parsed once: look the field up and
run `_parse_ip_translation` on it.  Every iteration of the expansion loop
performs exactly this computation. -/
def sharedIpSpec (d : List (String × JValue)) : Except TError IPTranslationStrategySpec :=
  ebind (keyLookup d "ip_translation") parse_ip_translation

/-- The shared `duration` input parsed once: look the field up and run
`_parse_duration` on it.  Every iteration of the expansion loop performs
exactly this computation. -/
def sharedDuration (d : List (String × JValue)) : Except TError PyNum :=
  ebind (keyLookup d "duration") parse_duration_j

/-- `r` is the record the loop body builds from the cross-product element
`item = (start_time, client_provider, site, metric)` of document `d`. -/
def BuiltFrom (d : List (String × JValue))
    (item : JValue × JValue × JValue × JValue) (r : Selector) : Prop :=
  parse_start_time_j item.1 = .ok r.start_time ∧
  sharedDuration d = .ok r.duration ∧
  sharedIpSpec d = .ok r.ip_translation_spec ∧
  r.client_provider = item.2.1 ∧
  r.site = item.2.2.1 ∧
  r.metric = item.2.2.2 ∧
  metricProject item.2.2.2 = .ok r.mlab_project

theorem expandLoop_cons_ok {d : List (String × JValue)}
    {st cp site metric : JValue} {rest : List (JValue × JValue × JValue × JValue)}
    {out : List Selector × ℕ × ℕ}
    (h : expandLoop d ((st, cp, site, metric) :: rest) = .ok out) :
    ∃ ip dur t proj recs nIp nDur,
      sharedIpSpec d = .ok ip ∧ sharedDuration d = .ok dur ∧
      parse_start_time_j st = .ok t ∧ metricProject metric = .ok proj ∧
      expandLoop d rest = .ok (recs, nIp, nDur) ∧
      out = (⟨t, dur, metric, ip, cp, site, proj⟩ :: recs, nIp + 1, nDur + 1) := by
  unfold expandLoop at h
  obtain ⟨ipRaw, hIpRaw, h⟩ := ebind_ok h
  obtain ⟨ip, hIp, h⟩ := ebind_ok h
  obtain ⟨durRaw, hDurRaw, h⟩ := ebind_ok h
  obtain ⟨dur, hDur, h⟩ := ebind_ok h
  obtain ⟨t, hT, h⟩ := ebind_ok h
  obtain ⟨proj, hProj, h⟩ := ebind_ok h
  obtain ⟨acc, hRest, h⟩ := ebind_ok h
  refine ⟨ip, dur, t, proj, acc.1, acc.2.1, acc.2.2, ?_, ?_, hT, hProj, hRest, ?_⟩
  · unfold sharedIpSpec
    rw [hIpRaw, ebind_okv]
    exact hIp
  · unfold sharedDuration
    rw [hDurRaw, ebind_okv]
    exact hDur
  · exact (Except.ok.inj h).symm

theorem expandLoop_ok_length {d : List (String × JValue)}
    {items : List (JValue × JValue × JValue × JValue)} {out : List Selector × ℕ × ℕ}
    (h : expandLoop d items = .ok out) :
    out.1.length = items.length ∧ out.2.1 = items.length ∧ out.2.2 = items.length := by
  induction items generalizing out with
  | nil =>
    unfold expandLoop at h
    cases h
    exact ⟨rfl, rfl, rfl⟩
  | cons x rest ih =>
    obtain ⟨st, cp, site, metric⟩ := x
    obtain ⟨ip, dur, t, proj, recs, nIp, nDur, _, _, _, _, hRest, hOut⟩ := expandLoop_cons_ok h
    subst hOut
    obtain ⟨h1, h2, h3⟩ := ih hRest
    exact ⟨by simpa using h1, by simpa using h2, by simpa using h3⟩

theorem expandLoop_ok_get {d : List (String × JValue)}
    {items : List (JValue × JValue × JValue × JValue)} {out : List Selector × ℕ × ℕ}
    (h : expandLoop d items = .ok out)
    {i : ℕ} {x : JValue × JValue × JValue × JValue} (hx : items[i]? = some x) :
    ∃ r, out.1[i]? = some r ∧ BuiltFrom d x r := by
  induction items generalizing out i with
  | nil => simp at hx
  | cons y rest ih =>
    obtain ⟨st, cp, site, metric⟩ := y
    obtain ⟨ip, dur, t, proj, recs, nIp, nDur, hIp, hDur, hT, hProj, hRest, hOut⟩ :=
      expandLoop_cons_ok h
    subst hOut
    cases i with
    | zero =>
      rw [List.getElem?_cons_zero] at hx
      cases hx
      exact ⟨⟨t, dur, metric, ip, cp, site, proj⟩, by simp, hT, hDur, hIp, rfl, rfl, rfl, hProj⟩
    | succ i =>
      rw [List.getElem?_cons_succ] at hx
      simpa using ih hRest hx

theorem expandLoop_ok_mem {d : List (String × JValue)}
    {items : List (JValue × JValue × JValue × JValue)} {out : List Selector × ℕ × ℕ}
    (h : expandLoop d items = .ok out) {r : Selector} (hr : r ∈ out.1) :
    ∃ x, x ∈ items ∧ BuiltFrom d x r := by
  obtain ⟨i, hi, hget⟩ := List.mem_iff_getElem.mp hr
  have hlen : out.1.length = items.length := (expandLoop_ok_length h).1
  have hii : i < items.length := hlen ▸ hi
  obtain ⟨r2, hr2, hbf⟩ := expandLoop_ok_get h (x := items[i]) (i := i) (by simp [hii])
  rw [List.getElem?_eq_getElem hi] at hr2
  cases hr2
  exact ⟨items[i], List.getElem_mem hii, hget ▸ hbf⟩

/-! ## Indexing the cross product -/

theorem length_flatMap_const {α β : Type} (as : List α) (f : α → List β) (k : ℕ)
    (h : ∀ a ∈ as, (f a).length = k) : (as.flatMap f).length = as.length * k := by
  induction as with
  | nil => simp
  | cons a as ih =>
    simp only [List.flatMap_cons, List.length_append, List.length_cons]
    rw [h a (by simp), ih (fun a ha => h a (by simp [ha])), Nat.succ_mul]
    omega

theorem getElem?_flatMap_const {α β : Type} (as : List α) (f : α → List β) (k : ℕ)
    (h : ∀ a ∈ as, (f a).length = k) {i : ℕ} {a : α} (ha : as[i]? = some a)
    {j : ℕ} (hj : j < k) :
    (as.flatMap f)[i * k + j]? = (f a)[j]? := by
  induction as generalizing i with
  | nil => simp at ha
  | cons x as ih =>
    rw [List.flatMap_cons]
    cases i with
    | zero =>
      rw [List.getElem?_cons_zero] at ha
      cases ha
      rw [Nat.zero_mul, Nat.zero_add]
      exact List.getElem?_append_left (by rw [h a (by simp)]; exact hj)
    | succ i =>
      rw [List.getElem?_cons_succ] at ha
      have hx : (f x).length = k := h x (by simp)
      have hle : (f x).length ≤ (i + 1) * k + j := by
        rw [hx, Nat.succ_mul]
        omega
      rw [List.getElem?_append_right hle, hx]
      have harith : (i + 1) * k + j - k = i * k + j := by
        rw [Nat.succ_mul]
        omega
      rw [harith]
      exact ih (fun a hha => h a (by simp [hha])) ha

theorem product4_length {α β γ δ : Type}
    (as : List α) (bs : List β) (cs : List γ) (ds : List δ) :
    (product4 as bs cs ds).length = as.length * bs.length * cs.length * ds.length := by
  unfold product4
  rw [length_flatMap_const (k := bs.length * (cs.length * ds.length))]
  · ring
  · intro a _
    rw [length_flatMap_const (k := cs.length * ds.length)]
    intro b _
    rw [length_flatMap_const (k := ds.length)]
    intro c _
    exact List.length_map ds _

theorem product4_getElem? {α β γ δ : Type}
    (as : List α) (bs : List β) (cs : List γ) (ds : List δ)
    {s cp site m : ℕ} {a : α} {b : β} {c : γ} {dv : δ}
    (ha : as[s]? = some a) (hb : bs[cp]? = some b)
    (hc : cs[site]? = some c) (hd : ds[m]? = some dv) :
    (product4 as bs cs ds)[((s * bs.length + cp) * cs.length + site) * ds.length + m]? =
      some (a, b, c, dv) := by
  have hcp : cp < bs.length := by
    by_contra hcon
    rw [List.getElem?_eq_none (by omega)] at hb
    exact Option.noConfusion hb
  have hsite : site < cs.length := by
    by_contra hcon
    rw [List.getElem?_eq_none (by omega)] at hc
    exact Option.noConfusion hc
  have hm : m < ds.length := by
    by_contra hcon
    rw [List.getElem?_eq_none (by omega)] at hd
    exact Option.noConfusion hd
  have hidx : ((s * bs.length + cp) * cs.length + site) * ds.length + m =
      s * (bs.length * (cs.length * ds.length)) +
        (cp * (cs.length * ds.length) + (site * ds.length + m)) := by ring
  have hinner : cp * (cs.length * ds.length) + (site * ds.length + m) <
      bs.length * (cs.length * ds.length) := by
    have h1 : site * ds.length + m < cs.length * ds.length := by
      calc site * ds.length + m < site * ds.length + ds.length := by omega
      _ = (site + 1) * ds.length := by ring
      _ ≤ cs.length * ds.length := Nat.mul_le_mul_right _ (by omega)
    calc cp * (cs.length * ds.length) + (site * ds.length + m)
        < cp * (cs.length * ds.length) + cs.length * ds.length := by omega
      _ = (cp + 1) * (cs.length * ds.length) := by ring
      _ ≤ bs.length * (cs.length * ds.length) := Nat.mul_le_mul_right _ (by omega)
  unfold product4
  rw [hidx]
  rw [getElem?_flatMap_const _ _ (bs.length * (cs.length * ds.length))
      (fun a _ => by
        rw [length_flatMap_const (k := cs.length * ds.length)]
        intro b _
        rw [length_flatMap_const (k := ds.length)]
        intro c _
        exact List.length_map ds _)
      ha hinner]
  rw [getElem?_flatMap_const _ _ (cs.length * ds.length)
      (fun b _ => by
        rw [length_flatMap_const (k := ds.length)]
        intro c _
        exact List.length_map ds _)
      hb
      (by
        calc site * ds.length + m < site * ds.length + ds.length := by omega
          _ = (site + 1) * ds.length := by ring
          _ ≤ cs.length * ds.length := Nat.mul_le_mul_right _ (by omega))]
  rw [getElem?_flatMap_const _ _ ds.length (fun c _ => List.length_map ds _) hc hm]
  rw [List.getElem?_map, hd]
  rfl

theorem keyLookup_some {d : List (String × JValue)} {k : String} {v : JValue}
    (h : jlookup d k = some v) : keyLookup d k = .ok v := by
  unfold keyLookup
  rw [h]

/-- When the four axis fields are present and list-valued, the expansion
is exactly the loop over their cross product. -/
theorem parse_input_full_lists {d : List (String × JValue)}
    {sts cps sites metrics : List JValue}
    (hsts : jlookup d "start_times" = some (.jlist sts))
    (hcps : jlookup d "client_providers" = some (.jlist cps))
    (hsites : jlookup d "sites" = some (.jlist sites))
    (hms : jlookup d "metrics" = some (.jlist metrics)) :
    parse_input_full d = expandLoop d (product4 sts cps sites metrics) := by
  unfold parse_input_full
  rw [keyLookup_some hsts, keyLookup_some hcps, keyLookup_some hsites, keyLookup_some hms]
  simp only [ebind_okv, pyIterate]

/-! ## Claim theorems -/

/-- C1: for every document that passes validation whose `start_times`,
`client_providers`, `sites`, `metrics` fields are lists of lengths
`a, b, c, d`, a successful expansion returns exactly `a*b*c*d` records,
and the record at zero-based index `((s*b + cp)*c + site)*d + m` is the
one built from `start_times[s]`, `client_providers[cp]`, `sites[site]`,
`metrics[m]` — `start_times` outermost, `metrics` innermost. -/
theorem claim_C1_cross_product (d : List (String × JValue))
    (sts cps sites metrics : List JValue) (recs : List Selector)
    (_hval : validate_selector_input d = .ok ())
    (hsts : jlookup d "start_times" = some (.jlist sts))
    (hcps : jlookup d "client_providers" = some (.jlist cps))
    (hsites : jlookup d "sites" = some (.jlist sites))
    (hms : jlookup d "metrics" = some (.jlist metrics))
    (hok : parse_input_for_selectors d = .ok recs) :
    recs.length = sts.length * cps.length * sites.length * metrics.length ∧
    ∀ (s cp site m : ℕ) (st cpv sv mv : JValue),
      sts[s]? = some st → cps[cp]? = some cpv →
      sites[site]? = some sv → metrics[m]? = some mv →
      ∃ r,
        recs[((s * cps.length + cp) * sites.length + site) * metrics.length + m]? =
          some r ∧
        BuiltFrom d (st, cpv, sv, mv) r := by
  unfold parse_input_for_selectors at hok
  obtain ⟨acc, hfull, hproj⟩ := ebind_ok hok
  have hrecs : acc.1 = recs := Except.ok.inj hproj
  rw [parse_input_full_lists hsts hcps hsites hms] at hfull
  constructor
  · rw [← hrecs, (expandLoop_ok_length hfull).1, product4_length]
  · intro s cp site m st cpv sv mv h1 h2 h3 h4
    obtain ⟨r, hr, hbf⟩ :=
      expandLoop_ok_get hfull (product4_getElem? sts cps sites metrics h1 h2 h3 h4)
    exact ⟨r, by rw [← hrecs]; exact hr, hbf⟩

/-- A concrete document with a `2 × 2` cross product (one start time, one
provider, two sites, two metrics). -/
def c1Doc : List (String × JValue) :=
  [("file_format_version", .jnum 11 1),
   ("duration", .jstr "30s"),
   ("metrics", .jlist [.jstr "minimum_rtt", .jstr "average_rtt"]),
   ("ip_translation",
    .jobj [("strategy", .jstr "maxmind"),
           ("params", .jobj [("db_snapshots", .jlist [.jstr "2014-08-04"])])]),
   ("start_times", .jlist [.jstr "2014-02-01T00:00:00Z"]),
   ("client_providers", .jlist [.jstr "comcast"]),
   ("sites", .jlist [.jstr "lga01", .jstr "lga02"])]

/-- The record the expansion builds for site `i` and metric `mn`. -/
def c1Rec (siteName metricName : String) : Selector :=
  { start_time := ⟨⟨2014, 2, 1, 0, 0, 0⟩, 0⟩
    duration := .pint 30
    metric := .jstr metricName
    ip_translation_spec :=
      ⟨.jstr "maxmind", .jobj [("db_snapshots", .jlist [.jstr "2014-08-04"])]⟩
    client_provider := .jstr "comcast"
    site := .jstr siteName
    mlab_project := "ndt" }

def c1Recs : List Selector :=
  [c1Rec "lga01" "minimum_rtt", c1Rec "lga01" "average_rtt",
   c1Rec "lga02" "minimum_rtt", c1Rec "lga02" "average_rtt"]

theorem claim_C1_witness :
    c1Recs.length = 1 * 1 * 2 * 2 ∧
    ∃ r, c1Recs[3]? = some r ∧
      BuiltFrom c1Doc
        (.jstr "2014-02-01T00:00:00Z", .jstr "comcast", .jstr "lga02",
         .jstr "average_rtt") r := by
  obtain ⟨hlen, hidx⟩ :=
    claim_C1_cross_product c1Doc
      [.jstr "2014-02-01T00:00:00Z"] [.jstr "comcast"]
      [.jstr "lga01", .jstr "lga02"] [.jstr "minimum_rtt", .jstr "average_rtt"]
      c1Recs rfl rfl rfl rfl rfl rfl
  refine ⟨by simpa using hlen, ?_⟩
  have h := hidx 0 0 1 1 _ _ _ _ rfl rfl rfl rfl
  simpa using h

/-! ## Helper lemmas about duration parsing -/

/-- Is `u` one of the four recognized unit strings? -/
def isValidUnit (u : String) : Bool :=
  u = "d" ∨ u = "h" ∨ u = "m" ∨ u = "s"

/-- The number of seconds one segment contributes, per the fixed
conversion table (`1d = 86400`, `1h = 3600`, `1m = 60`, `1s = 1`). -/
def segContribution (p : ℕ × String) : ℤ :=
  if p.2 = "d" then (p.1 : ℤ) * 86400
  else if p.2 = "h" then (p.1 : ℤ) * 3600
  else if p.2 = "m" then (p.1 : ℤ) * 60
  else if p.2 = "s" then (p.1 : ℤ)
  else 0

/-- Is this segment one the timedelta path can process: a recognized
unit whose amount stays within the timedelta bound for that unit? -/
def segmentOk (p : ℕ × String) : Bool :=
  (p.2 = "d" ∧ p.1 ≤ 999999999) ∨ (p.2 = "h" ∧ p.1 ≤ 23999999999) ∨
    (p.2 = "m" ∧ p.1 ≤ 1439999999999) ∨ p.2 = "s"

theorem roundDouble_small {x : ℤ} (h0 : 0 ≤ x) (h53 : x < 2 ^ 53) :
    roundDouble x = some x := by
  have hZ : (2 : ℤ) ^ 53 = 9007199254740992 := by norm_num
  have hN : (2 : ℕ) ^ 53 = 9007199254740992 := by norm_num
  rw [hZ] at h53
  unfold roundDouble
  rw [if_pos (by rw [hN]; omega)]

theorem PyNum.add_exact {a b : PyNum}
    (ha : a.isInf = false) (hb : b.isInf = false)
    (ha0 : 0 ≤ a.val) (hb0 : 0 ≤ b.val)
    (hsum : a.val + b.val < 2 ^ 53) :
    ∃ c, a.add b = some c ∧ c.val = a.val + b.val ∧ c.isInf = false := by
  have hZ : (2 : ℤ) ^ 53 = 9007199254740992 := by norm_num
  cases a with
  | pinf => exact Bool.noConfusion ha
  | pint x =>
    cases b with
    | pinf => exact Bool.noConfusion hb
    | pint y => exact ⟨.pint (x + y), rfl, rfl, rfl⟩
    | pfloat y =>
      simp only [PyNum.val] at ha0 hb0 hsum
      rw [hZ] at hsum
      have hx : roundDouble x = some x :=
        roundDouble_small ha0 (by rw [hZ]; omega)
      have hxy : roundDouble (x + y) = some (x + y) :=
        roundDouble_small (by omega) (by rw [hZ]; omega)
      refine ⟨.pfloat (x + y), ?_, rfl, rfl⟩
      simp only [PyNum.add, hx, addDouble, hxy]
  | pfloat x =>
    cases b with
    | pinf => exact Bool.noConfusion hb
    | pint y =>
      simp only [PyNum.val] at ha0 hb0 hsum
      rw [hZ] at hsum
      have hy : roundDouble y = some y :=
        roundDouble_small hb0 (by rw [hZ]; omega)
      have hxy : roundDouble (x + y) = some (x + y) :=
        roundDouble_small (by omega) (by rw [hZ]; omega)
      refine ⟨.pfloat (x + y), ?_, rfl, rfl⟩
      simp only [PyNum.add, hy, addDouble, hxy]
    | pfloat y =>
      simp only [PyNum.val] at ha0 hb0 hsum
      rw [hZ] at hsum
      have hxy : roundDouble (x + y) = some (x + y) :=
        roundDouble_small (by omega) (by rw [hZ]; omega)
      refine ⟨.pfloat (x + y), ?_, rfl, rfl⟩
      simp only [PyNum.add, addDouble, hxy]

theorem segmentValue_ok_val {p : ℕ × String} {w : PyNum}
    (h : segmentValue p = .ok w) :
    w.val = segContribution p ∧ 0 ≤ w.val ∧ w.isInf = false := by
  obtain ⟨n, u⟩ := p
  simp only [segmentValue] at h
  simp only [segContribution]
  by_cases h1 : u = "d"
  · rw [if_pos h1] at h
    by_cases hb : n ≤ 999999999
    · rw [if_pos hb] at h
      cases h
      exact ⟨by simp [h1, PyNum.val], by simp only [PyNum.val]; positivity, rfl⟩
    · rw [if_neg hb] at h
      exact Except.noConfusion h
  · rw [if_neg h1] at h
    by_cases h2 : u = "h"
    · rw [if_pos h2] at h
      by_cases hb : n ≤ 23999999999
      · rw [if_pos hb] at h
        cases h
        exact ⟨by simp [h1, h2, PyNum.val], by simp only [PyNum.val]; positivity, rfl⟩
      · rw [if_neg hb] at h
        exact Except.noConfusion h
    · rw [if_neg h2] at h
      by_cases h3 : u = "m"
      · rw [if_pos h3] at h
        by_cases hb : n ≤ 1439999999999
        · rw [if_pos hb] at h
          cases h
          exact ⟨by simp [h1, h2, h3, PyNum.val], by simp only [PyNum.val]; positivity, rfl⟩
        · rw [if_neg hb] at h
          exact Except.noConfusion h
      · rw [if_neg h3] at h
        by_cases h4 : u = "s"
        · rw [if_pos h4] at h
          cases h
          exact ⟨by simp [h1, h2, h3, h4, PyNum.val], by simp only [PyNum.val]; positivity, rfl⟩
        · rw [if_neg h4] at h
          exact Except.noConfusion h

theorem segmentValue_ok_valid {p : ℕ × String} {w : PyNum}
    (h : segmentValue p = .ok w) : isValidUnit p.2 = true := by
  obtain ⟨n, u⟩ := p
  simp only [segmentValue] at h
  simp only [isValidUnit]
  by_cases h1 : u = "d" <;> by_cases h2 : u = "h" <;> by_cases h3 : u = "m" <;>
    by_cases h4 : u = "s" <;> simp [h1, h2, h3, h4] at h ⊢

theorem segmentValue_error_cases {p : ℕ × String} {e : TError}
    (h : segmentValue p = .error e) :
    e = .UnsupportedDurationUnit ∨ e = .OverflowError := by
  obtain ⟨n, u⟩ := p
  simp only [segmentValue] at h
  by_cases h1 : u = "d"
  · rw [if_pos h1] at h
    by_cases hb : n ≤ 999999999
    · rw [if_pos hb] at h
      exact Except.noConfusion h
    · rw [if_neg hb] at h
      exact Or.inr (Except.error.inj h).symm
  · rw [if_neg h1] at h
    by_cases h2 : u = "h"
    · rw [if_pos h2] at h
      by_cases hb : n ≤ 23999999999
      · rw [if_pos hb] at h
        exact Except.noConfusion h
      · rw [if_neg hb] at h
        exact Or.inr (Except.error.inj h).symm
    · rw [if_neg h2] at h
      by_cases h3 : u = "m"
      · rw [if_pos h3] at h
        by_cases hb : n ≤ 1439999999999
        · rw [if_pos hb] at h
          exact Except.noConfusion h
        · rw [if_neg hb] at h
          exact Or.inr (Except.error.inj h).symm
      · rw [if_neg h3] at h
        by_cases h4 : u = "s"
        · rw [if_pos h4] at h
          exact Except.noConfusion h
        · rw [if_neg h4] at h
          exact Or.inl (Except.error.inj h).symm

theorem segmentOk_value {p : ℕ × String} (h : segmentOk p = true) :
    ∃ w, segmentValue p = .ok w := by
  obtain ⟨n, u⟩ := p
  simp only [segmentOk, decide_eq_true_eq] at h
  simp only [segmentValue]
  rcases h with ⟨h1, hb⟩ | ⟨h2, hb⟩ | ⟨h3, hb⟩ | h4
  · rw [if_pos h1, if_pos hb]
    exact ⟨_, rfl⟩
  · rw [if_neg (by rw [h2]; decide), if_pos h2, if_pos hb]
    exact ⟨_, rfl⟩
  · rw [if_neg (by rw [h3]; decide), if_neg (by rw [h3]; decide), if_pos h3, if_pos hb]
    exact ⟨_, rfl⟩
  · rw [if_neg (by rw [h4]; decide), if_neg (by rw [h4]; decide),
      if_neg (by rw [h4]; decide), if_pos h4]
    exact ⟨_, rfl⟩

theorem segContribution_nonneg (p : ℕ × String) : 0 ≤ segContribution p := by
  obtain ⟨n, u⟩ := p
  unfold segContribution
  repeat' split
  all_goals positivity

theorem segContributionSum_nonneg (segs : List (ℕ × String)) :
    0 ≤ (segs.map segContribution).sum := by
  apply List.sum_nonneg
  intro x hx
  obtain ⟨q, _, rfl⟩ := List.mem_map.mp hx
  exact segContribution_nonneg q

/-- A successful fold whose exact contribution sum stays below `2^53`
computes that exact sum: every intermediate value is then below `2^53`,
where int-to-float conversion and float addition are exact. -/
theorem durationFold_ok_exact {segs : List (ℕ × String)} {acc v : PyNum}
    (h : durationFold segs acc = .ok v)
    (hfin : acc.isInf = false) (hnn : 0 ≤ acc.val)
    (hsum : acc.val + (segs.map segContribution).sum < 2 ^ 53) :
    v.val = acc.val + (segs.map segContribution).sum ∧ v.isInf = false := by
  induction segs generalizing acc with
  | nil =>
    unfold durationFold at h
    cases h
    simp [hfin]
  | cons p rest ih =>
    unfold durationFold at h
    cases hseg : segmentValue p with
    | error e =>
      rw [hseg] at h
      exact Except.noConfusion h
    | ok w =>
      rw [hseg] at h
      obtain ⟨hwval, hw0, hwfin⟩ := segmentValue_ok_val hseg
      have hrest0 : 0 ≤ (rest.map segContribution).sum := segContributionSum_nonneg rest
      have hadd : acc.val + w.val < 2 ^ 53 := by
        rw [List.map_cons, List.sum_cons] at hsum
        rw [hwval]
        linarith
      obtain ⟨c, hc, hcval, hcfin⟩ := PyNum.add_exact hfin hwfin hnn hw0 hadd
      have h2 : (match acc.add w with
          | some acc2 => durationFold rest acc2
          | none => (Except.error TError.OverflowError : Except TError PyNum)) =
          Except.ok v := h
      rw [hc] at h2
      have hc0 : 0 ≤ c.val := by
        rw [hcval]
        exact add_nonneg hnn hw0
      have hrec := ih h2 hcfin hc0 (by
        rw [List.map_cons, List.sum_cons] at hsum
        rw [hcval, hwval]
        linarith)
      rw [List.map_cons, List.sum_cons]
      exact ⟨by rw [hrec.1, hcval, hwval]; ring, hrec.2⟩

/-- When every segment is within its timedelta bound and the exact total
stays below `2^53`, the fold succeeds. -/
theorem durationFold_ok_of_good {segs : List (ℕ × String)} (acc : PyNum)
    (hgood : ∀ p ∈ segs, segmentOk p = true)
    (hfin : acc.isInf = false) (hnn : 0 ≤ acc.val)
    (hsum : acc.val + (segs.map segContribution).sum < 2 ^ 53) :
    ∃ v, durationFold segs acc = .ok v := by
  induction segs generalizing acc with
  | nil => exact ⟨acc, rfl⟩
  | cons p rest ih =>
    obtain ⟨w, hw⟩ := segmentOk_value (hgood p (by simp))
    obtain ⟨hwval, hw0, hwfin⟩ := segmentValue_ok_val hw
    have hrest0 : 0 ≤ (rest.map segContribution).sum := segContributionSum_nonneg rest
    have hadd : acc.val + w.val < 2 ^ 53 := by
      rw [List.map_cons, List.sum_cons] at hsum
      rw [hwval]
      linarith
    obtain ⟨c, hc, hcval, hcfin⟩ := PyNum.add_exact hfin hwfin hnn hw0 hadd
    obtain ⟨v, hv⟩ := ih c (fun q hq => hgood q (by simp [hq])) hcfin
      (by rw [hcval]; exact add_nonneg hnn hw0)
      (by
        rw [List.map_cons, List.sum_cons] at hsum
        rw [hcval, hwval]
        linarith)
    refine ⟨v, ?_⟩
    unfold durationFold
    rw [hw]
    show (match acc.add w with
        | some acc2 => durationFold rest acc2
        | none => (Except.error TError.OverflowError : Except TError PyNum)) =
        Except.ok v
    rw [hc]
    exact hv

/-- A fold over segments containing an unrecognized unit fails: with the
unsupported-unit error when that segment is reached, or with the
`OverflowError` of an earlier oversized segment or conversion. -/
theorem durationFold_err_of_invalid {segs : List (ℕ × String)} (acc : PyNum)
    (h : ∃ p ∈ segs, isValidUnit p.2 = false) :
    durationFold segs acc = .error .UnsupportedDurationUnit ∨
    durationFold segs acc = .error .OverflowError := by
  induction segs generalizing acc with
  | nil => simp at h
  | cons seg rest ih =>
    unfold durationFold
    cases hseg : segmentValue seg with
    | error e =>
      rcases segmentValue_error_cases hseg with rfl | rfl
      · exact Or.inl rfl
      · exact Or.inr rfl
    | ok w =>
      have hvalid := segmentValue_ok_valid hseg
      obtain ⟨p, hp, hbad⟩ := h
      rcases List.mem_cons.mp hp with rfl | hmem
      · rw [hvalid] at hbad
        exact Bool.noConfusion hbad
      · show (match acc.add w with
            | some acc2 => durationFold rest acc2
            | none => (Except.error TError.OverflowError : Except TError PyNum)) =
              .error .UnsupportedDurationUnit ∨
          (match acc.add w with
            | some acc2 => durationFold rest acc2
            | none => (Except.error TError.OverflowError : Except TError PyNum)) =
              .error .OverflowError
        cases hadd : PyNum.add acc w with
        | none => exact Or.inr rfl
        | some acc2 => exact ih acc2 ⟨p, hmem, hbad⟩

/-- C4: the claim says the parser returns a non-negative *integer* number
of seconds, never a float, and the function's own docstring promises
`int` — but any `d`/`h`/`m` segment goes through
`timedelta.total_seconds()`, which returns a Python `float`, so even
`"1d"` yields the float `86400.0` rather than an int.  This theorem
evaluates the code at that failing input. -/
theorem claim_C4_float_not_int :
    parse_duration "1d" = .ok (.pfloat 86400) ∧
    (PyNum.pfloat 86400).isInt = false :=
  ⟨rfl, rfl⟩

/-- C5 counterexample: the claim says a signed segment such as `"-5d"`
never yields a successful result, but `re.findall` scans for matches
anywhere in the string, skipping the sign, so `"-5d"` parses successfully
to `432000.0` seconds. -/
theorem claim_C5_counterexample : parse_duration "-5d" = .ok (.pfloat 432000) := rfl

/-- C5 (amended): the duration parser ignores characters outside
`digits-then-letters` segments; on a string with no such segment (such as
the empty string) it fails with `NoDurationSpecified`; when some segment
has an unrecognized unit (such as `"5x"`) it fails — with
`UnsupportedDurationUnit`, unless the `OverflowError` of an earlier
oversized segment or int-to-float conversion preempts it; and when at
least one segment exists, every unit is in `{d, h, m, s}` with its amount
within the timedelta bound for that unit, and the exact total stays below
`2^53`, parsing succeeds — in particular extraneous characters such as
the leading sign of `"-5d"` do not prevent success, while
`"1000000000d"` exceeds timedelta's 999999999-day bound and fails with
`OverflowError`. -/
theorem claim_C5_amended (s : String) :
    (findall_segments s.data = [] → parse_duration s = .error .NoDurationSpecified) ∧
    ((∃ p ∈ findall_segments s.data, isValidUnit p.2 = false) →
      parse_duration s = .error .UnsupportedDurationUnit ∨
      parse_duration s = .error .OverflowError) ∧
    (findall_segments s.data ≠ [] →
      (∀ p ∈ findall_segments s.data, segmentOk p = true) →
      ((findall_segments s.data).map segContribution).sum < 2 ^ 53 →
      ∃ v, parse_duration s = .ok v) ∧
    parse_duration "1000000000d" = .error .OverflowError := by
  refine ⟨fun h => ?_, fun h => ?_, fun h1 h2 h3 => ?_, by decide⟩
  · unfold parse_duration
    rw [h]
    rfl
  · unfold parse_duration
    have hne : findall_segments s.data ≠ [] := by
      obtain ⟨p, hp, _⟩ := h
      intro hnil
      rw [hnil] at hp
      simp at hp
    rw [if_neg (by simpa using hne)]
    exact durationFold_err_of_invalid _ h
  · unfold parse_duration
    rw [if_neg (by simpa using h1)]
    exact durationFold_ok_of_good _ h2 rfl le_rfl (by simpa [PyNum.val] using h3)

theorem claim_C5_witness :
    ∃ v, parse_duration "-5d" = .ok v :=
  (claim_C5_amended "-5d").2.2.1 (by decide) (by decide) (by decide)

set_option maxRecDepth 8000 in
/-- C7 counterexample: the claim says a successful parse is the exact sum
of the fixed per-segment conversions; but the accumulation is float
arithmetic, which rounds to nearest-even once the running sum leaves the
`2^53` range: on `"1d9007199254654593s"` the exact sum is
`9007199254740993` (`2^53 + 1`) while the parser returns the double
`9007199254740992.0`. -/
theorem claim_C7_counterexample :
    parse_duration "1d9007199254654593s" = .ok (.pfloat 9007199254740992) ∧
    ((findall_segments "1d9007199254654593s".data).map segContribution).sum =
      9007199254740993 ∧
    (9007199254740992 : ℤ) < 9007199254740993 :=
  ⟨by decide, by decide, by decide⟩

/-- C7 (amended): a successful duration parse whose exact segment sum
stays below `2^53` equals the sum over all found segments of the fixed
conversions `1d = 86400`, `1h = 3600`, `1m = 60`, `1s = 1` seconds
(beyond `2^53` the float accumulation rounds); in particular
`parse("1d2h3m4s") = 93784` and `parse("7d") = 604800`. -/
theorem claim_C7_duration_sum :
    (∀ (s : String) (v : PyNum), parse_duration s = .ok v →
      ((findall_segments s.data).map segContribution).sum < 2 ^ 53 →
      v.val = ((findall_segments s.data).map segContribution).sum) ∧
    (parse_duration "1d2h3m4s").map PyNum.val = .ok 93784 ∧
    (parse_duration "7d").map PyNum.val = .ok 604800 := by
  refine ⟨fun s v h hbound => ?_, by decide, by decide⟩
  unfold parse_duration at h
  by_cases hnil : (findall_segments s.data).isEmpty
  · rw [if_pos hnil] at h
    exact Except.noConfusion h
  · rw [if_neg hnil] at h
    have := durationFold_ok_exact h rfl le_rfl (by simpa [PyNum.val] using hbound)
    simpa [PyNum.val] using this.1

theorem claim_C7_witness :
    (PyNum.pfloat 93784).val =
      ((findall_segments "1d2h3m4s".data).map segContribution).sum :=
  claim_C7_duration_sum.1 "1d2h3m4s" (.pfloat 93784) (by decide) (by decide)

theorem parse_input_full_ok_inv {d : List (String × JValue)}
    {out : List Selector × ℕ × ℕ} (h : parse_input_full d = .ok out) :
    ∃ items, expandLoop d items = .ok out := by
  unfold parse_input_full at h
  obtain ⟨_, _, h⟩ := ebind_ok h
  obtain ⟨_, _, h⟩ := ebind_ok h
  obtain ⟨_, _, h⟩ := ebind_ok h
  obtain ⟨_, _, h⟩ := ebind_ok h
  obtain ⟨_, _, h⟩ := ebind_ok h
  obtain ⟨_, _, h⟩ := ebind_ok h
  obtain ⟨_, _, h⟩ := ebind_ok h
  obtain ⟨_, _, h⟩ := ebind_ok h
  exact ⟨_, h⟩

/-- C2 counterexample: the claim says `duration` and `ip_translation` are
parsed exactly once per parse call; on a document whose cross product has
four elements, the loop performs four `_parse_ip_translation` calls and
four `_parse_duration` calls — one per record, not one. -/
theorem claim_C2_counterexample :
    parse_input_full c1Doc = .ok (c1Recs, 4, 4) ∧ (1 : ℕ) < 4 :=
  ⟨rfl, by decide⟩

/-- C2 (amended): the duration value and the ip_translation_spec value
are identical across all produced records — each equals the result of
parsing the shared scalar input — but the two inputs are re-parsed once
per produced record inside the loop (call counts equal the number of
records), not parsed once per parse call. -/
theorem claim_C2_amended (d : List (String × JValue))
    (recs : List Selector) (nIp nDur : ℕ)
    (h : parse_input_full d = .ok (recs, nIp, nDur)) :
    (∀ r ∈ recs, sharedDuration d = .ok r.duration ∧
      sharedIpSpec d = .ok r.ip_translation_spec) ∧
    (∀ r1 ∈ recs, ∀ r2 ∈ recs,
      r1.duration = r2.duration ∧ r1.ip_translation_spec = r2.ip_translation_spec) ∧
    nIp = recs.length ∧ nDur = recs.length := by
  obtain ⟨items, hloop⟩ := parse_input_full_ok_inv h
  have hshared : ∀ r ∈ recs, sharedDuration d = .ok r.duration ∧
      sharedIpSpec d = .ok r.ip_translation_spec := by
    intro r hr
    obtain ⟨x, _, hbf⟩ := expandLoop_ok_mem hloop hr
    exact ⟨hbf.2.1, hbf.2.2.1⟩
  refine ⟨hshared, fun r1 h1 r2 h2 => ?_, ?_, ?_⟩
  · obtain ⟨hd1, hi1⟩ := hshared r1 h1
    obtain ⟨hd2, hi2⟩ := hshared r2 h2
    rw [hd1] at hd2
    rw [hi1] at hi2
    exact ⟨Except.ok.inj hd2, Except.ok.inj hi2⟩
  · exact (expandLoop_ok_length hloop).2.1.trans (expandLoop_ok_length hloop).1.symm
  · exact (expandLoop_ok_length hloop).2.2.trans (expandLoop_ok_length hloop).1.symm

theorem claim_C2_witness :
    ((c1Rec "lga01" "minimum_rtt").duration = (c1Rec "lga02" "average_rtt").duration ∧
      (c1Rec "lga01" "minimum_rtt").ip_translation_spec =
        (c1Rec "lga02" "average_rtt").ip_translation_spec) ∧
    (4 : ℕ) = c1Recs.length := by
  obtain ⟨_, hsame, hIp, _⟩ := claim_C2_amended c1Doc c1Recs 4 4 rfl
  exact ⟨hsame _ (by simp [c1Recs]) _ (by simp [c1Recs]), hIp⟩

/-- A version-1.1 document with a `subsets` field but no `duration`. -/
def c3Doc : List (String × JValue) :=
  [("file_format_version", .jnum 11 1),
   ("subsets", .jlist []),
   ("metrics", .jlist [.jstr "minimum_rtt"])]

/-- C3 counterexample: the claim says a 1.1 document with a `subsets`
field fails with `SubsetsNoLongerSupported` even if `duration` is also
missing; but `validate_common` runs before the `subsets` check, so this
document fails with the missing-duration error instead. -/
theorem claim_C3_counterexample :
    validate_selector_input c3Doc = .error .MissingDuration ∧
    decide (validate_selector_input c3Doc = .error .SubsetsNoLongerSupported) = false :=
  ⟨rfl, rfl⟩

/-- C3 (amended): a version-1.1 document containing a `subsets` field
fails with `SubsetsNoLongerSupported` provided it passes common
validation (`duration` present, `metrics` a list of supported metrics);
when common validation fails, its error takes precedence. -/
theorem claim_C3_amended (d : List (String × JValue)) (v : JValue)
    (hv : jlookup d "file_format_version" = some v)
    (h10 : pyEqNum v 10 1 = false) (h11 : pyEqNum v 11 1 = true)
    (hcommon : validate_common d = .ok ())
    (hsub : (jlookup d "subsets").isSome = true) :
    validate_selector_input d = .error .SubsetsNoLongerSupported := by
  unfold validate_selector_input
  rw [hv]
  simp only [h10, h11, Bool.false_eq_true, if_false, if_true]
  unfold validate_1_1
  rw [hcommon, ebind_okv, if_pos hsub]

theorem claim_C3_witness :
    validate_selector_input
      [("file_format_version", .jnum 11 1),
       ("duration", .jstr "1d"),
       ("metrics", .jlist [.jstr "minimum_rtt"]),
       ("subsets", .jlist [])] = .error .SubsetsNoLongerSupported :=
  claim_C3_amended _ _ rfl rfl rfl rfl rfl

/-! ## Validation inversion lemmas -/

theorem validate_common_ok_inv {d : List (String × JValue)}
    (h : validate_common d = .ok ()) :
    (jlookup d "duration").isSome = true ∧
    ∃ ms, jlookup d "metrics" = some (.jlist ms) ∧ ms.all isSupportedMetric = true := by
  unfold validate_common at h
  by_cases hdur : (jlookup d "duration").isNone
  · rw [if_pos hdur] at h
    exact Except.noConfusion h
  · rw [if_neg hdur] at h
    have hsome : (jlookup d "duration").isSome = true := by
      cases hx : jlookup d "duration" with
      | none => rw [hx] at hdur; simp at hdur
      | some _ => rfl
    refine ⟨hsome, ?_⟩
    cases hms : jlookup d "metrics" with
    | none =>
      rw [hms] at h
      exact Except.noConfusion h
    | some mv =>
      rw [hms] at h
      cases mv with
      | jlist ms =>
        by_cases hall : ms.all isSupportedMetric = true
        · exact ⟨ms, rfl, hall⟩
        · have h2 : (if ms.all isSupportedMetric then (.ok () : Except TError Unit)
              else .error .UnsupportedMetric) = .ok () := h
          rw [if_neg hall] at h2
          exact Except.noConfusion h2
      | jnull => exact Except.noConfusion h
      | jbool b => exact Except.noConfusion h
      | jnum m e => exact Except.noConfusion h
      | jstr s => exact Except.noConfusion h
      | jobj fs => exact Except.noConfusion h

theorem validate_ok_common {d : List (String × JValue)}
    (h : validate_selector_input d = .ok ()) : validate_common d = .ok () := by
  unfold validate_selector_input at h
  cases hv : jlookup d "file_format_version" with
  | none =>
    rw [hv] at h
    exact Except.noConfusion h
  | some v =>
    rw [hv] at h
    have h2 : (if pyEqNum v 10 1 = true then (.error .DeprecatedVersion : Except TError Unit)
        else if pyEqNum v 11 1 = true then validate_1_1 d
        else .error .UnsupportedVersion) = .ok () := h
    by_cases h10 : pyEqNum v 10 1 = true
    · rw [if_pos h10] at h2
      exact Except.noConfusion h2
    · rw [if_neg h10] at h2
      by_cases h11 : pyEqNum v 11 1 = true
      · rw [if_pos h11] at h2
        unfold validate_1_1 at h2
        obtain ⟨a, ha, _⟩ := ebind_ok h2
        cases a
        exact ha
      · rw [if_neg h11] at h2
        exact Except.noConfusion h2

theorem metricProject_of_supported {m : JValue} (h : isSupportedMetric m = true) :
    ∃ p, metricProject m = .ok p := by
  cases m with
  | jstr s =>
    simp only [isSupportedMetric] at h
    cases hl : supported_metrics.lookup s with
    | none =>
      rw [hl] at h
      exact Bool.noConfusion h
    | some p =>
      refine ⟨p, ?_⟩
      simp only [metricProject, hl]
  | jnull => exact Bool.noConfusion h
  | jbool b => exact Bool.noConfusion h
  | jnum mm e => exact Bool.noConfusion h
  | jlist xs => exact Bool.noConfusion h
  | jobj fs => exact Bool.noConfusion h

theorem metricProject_ok_supported {m : JValue} {p : String}
    (h : metricProject m = .ok p) : isSupportedMetric m = true := by
  cases m with
  | jstr s =>
    simp only [metricProject] at h
    simp only [isSupportedMetric]
    cases hl : supported_metrics.lookup s with
    | none =>
      rw [hl] at h
      exact Except.noConfusion h
    | some q => rfl
  | jnull => exact Except.noConfusion h
  | jbool b => exact Except.noConfusion h
  | jnum mm e => exact Except.noConfusion h
  | jlist xs => exact Except.noConfusion h
  | jobj fs => exact Except.noConfusion h

/-- C8: every record a parse produces has a supported metric and a
`mlab_project` equal to the `supported_metrics` table lookup for that
metric; and for a document that passed validation, the table lookup the
loop performs cannot fail on any metric of the document (validation
checked membership in the same table). -/
theorem claim_C8_metric_table (d : List (String × JValue)) (recs : List Selector)
    (hval : validate_selector_input d = .ok ())
    (hok : parse_input_for_selectors d = .ok recs) :
    (∀ r ∈ recs, isSupportedMetric r.metric = true ∧
      metricProject r.metric = .ok r.mlab_project) ∧
    (∀ ms, jlookup d "metrics" = some (.jlist ms) →
      ∀ m ∈ ms, ∃ p, metricProject m = .ok p) := by
  constructor
  · intro r hr
    unfold parse_input_for_selectors at hok
    obtain ⟨acc, hfull, hproj⟩ := ebind_ok hok
    have hrecs : acc.1 = recs := Except.ok.inj hproj
    obtain ⟨items, hloop⟩ := parse_input_full_ok_inv hfull
    obtain ⟨x, _, hbf⟩ := expandLoop_ok_mem hloop (hrecs ▸ hr)
    obtain ⟨_, _, _, _, _, hmet, hproj2⟩ := hbf
    rw [← hmet] at hproj2
    exact ⟨metricProject_ok_supported hproj2, hproj2⟩
  · intro ms hms m hm
    obtain ⟨_, ms2, hms2, hall⟩ := validate_common_ok_inv (validate_ok_common hval)
    rw [hms] at hms2
    have : ms = ms2 := by
      have := Option.some.inj hms2
      exact JValue.jlist.inj this
    subst this
    exact metricProject_of_supported (by
      have := List.all_eq_true.mp hall m hm
      simpa using this)

theorem claim_C8_witness :
    isSupportedMetric (c1Rec "lga01" "minimum_rtt").metric = true ∧
    metricProject (c1Rec "lga01" "minimum_rtt").metric =
      .ok (c1Rec "lga01" "minimum_rtt").mlab_project :=
  (claim_C8_metric_table c1Doc c1Recs rfl rfl).1 _ (by simp [c1Recs])

/-- A version-1.1 document with valid duration and (empty) metrics, all
three list axes present, and no `ip_translation` field. -/
def c9Doc : List (String × JValue) :=
  [("file_format_version", .jnum 11 1),
   ("duration", .jstr "1d"),
   ("metrics", .jlist []),
   ("start_times", .jlist [.jstr "2014-01-01T00:00:00Z"]),
   ("client_providers", .jlist [.jstr "comcast"]),
   ("sites", .jlist [.jstr "lga01"])]

/-- C9 counterexample: the claim says a validated 1.1 document missing
any of `start_times`, `client_providers`, `sites`, `ip_translation`
makes parse fail with a `KeyError` during expansion; but `ip_translation`
is only looked up inside the loop body, so with an empty cross product
(empty `metrics` list) this document passes validation and parse
succeeds with the empty record list — no `KeyError` is raised. -/
theorem claim_C9_counterexample :
    validate_selector_input c9Doc = .ok () ∧
    jlookup c9Doc "ip_translation" = none ∧
    parse_file_contents c9Doc = .ok [] :=
  ⟨rfl, rfl, rfl⟩

/-- C9 (amended): validation reads only `file_format_version`,
`duration`, `metrics` and `subsets`, so it never checks `start_times`,
`client_providers`, `sites` or `ip_translation`; a missing `start_times`,
`client_providers` or `sites` field makes the expansion fail with the
untyped `KeyError` for that key (they are looked up before the loop,
first key first); a missing `ip_translation` field causes a `KeyError`
only when the cross product is non-empty, because it is looked up inside
the loop body. -/
theorem claim_C9_amended (d : List (String × JValue)) :
    (∀ d2 : List (String × JValue),
      jlookup d "file_format_version" = jlookup d2 "file_format_version" →
      jlookup d "duration" = jlookup d2 "duration" →
      jlookup d "metrics" = jlookup d2 "metrics" →
      jlookup d "subsets" = jlookup d2 "subsets" →
      validate_selector_input d = validate_selector_input d2) ∧
    (jlookup d "start_times" = none →
      parse_input_for_selectors d = .error (.KeyError "start_times")) ∧
    ((jlookup d "start_times").isSome = true →
      jlookup d "client_providers" = none →
      parse_input_for_selectors d = .error (.KeyError "client_providers")) ∧
    ((jlookup d "start_times").isSome = true →
      (jlookup d "client_providers").isSome = true →
      jlookup d "sites" = none →
      parse_input_for_selectors d = .error (.KeyError "sites")) ∧
    (∀ sts cps sites metrics : List JValue,
      jlookup d "start_times" = some (.jlist sts) →
      jlookup d "client_providers" = some (.jlist cps) →
      jlookup d "sites" = some (.jlist sites) →
      jlookup d "metrics" = some (.jlist metrics) →
      jlookup d "ip_translation" = none →
      product4 sts cps sites metrics ≠ [] →
      parse_input_for_selectors d = .error (.KeyError "ip_translation")) := by
  refine ⟨?_, ?_, ?_, ?_, ?_⟩
  · intro d2 h1 h2 h3 h4
    unfold validate_selector_input validate_1_1 validate_common
    rw [h1, h2, h3, h4]
  · intro h
    unfold parse_input_for_selectors parse_input_full keyLookup
    rw [h]
    rfl
  · intro h1 h
    obtain ⟨v1, hv1⟩ := Option.isSome_iff_exists.mp h1
    unfold parse_input_for_selectors parse_input_full keyLookup
    rw [hv1, h]
    rfl
  · intro h1 h2 h
    obtain ⟨v1, hv1⟩ := Option.isSome_iff_exists.mp h1
    obtain ⟨v2, hv2⟩ := Option.isSome_iff_exists.mp h2
    unfold parse_input_for_selectors parse_input_full keyLookup
    rw [hv1, hv2, h]
    rfl
  · intro sts cps sites metrics hsts hcps hsites hms hip hne
    unfold parse_input_for_selectors
    rw [parse_input_full_lists hsts hcps hsites hms]
    cases hprod : product4 sts cps sites metrics with
    | nil => exact absurd hprod hne
    | cons x rest =>
      obtain ⟨st, cp, site, metric⟩ := x
      unfold expandLoop keyLookup
      rw [hip]
      rfl

theorem claim_C9_witness :
    parse_input_for_selectors
      [("file_format_version", .jnum 11 1),
       ("duration", .jstr "1d"),
       ("metrics", .jlist [])] = .error (.KeyError "start_times") :=
  (claim_C9_amended _).2.1 rfl

/-- C10: if a validated document's four axis fields are lists and any one
of them is empty, parse succeeds with the empty record list — regardless
of the `duration` string, the `start_times` entries or the
`ip_translation` value, which are only parsed inside the loop body that
never runs. -/
theorem claim_C10_empty_axis (d : List (String × JValue))
    (sts cps sites metrics : List JValue)
    (hval : validate_selector_input d = .ok ())
    (hsts : jlookup d "start_times" = some (.jlist sts))
    (hcps : jlookup d "client_providers" = some (.jlist cps))
    (hsites : jlookup d "sites" = some (.jlist sites))
    (hms : jlookup d "metrics" = some (.jlist metrics))
    (hempty : sts = [] ∨ cps = [] ∨ sites = [] ∨ metrics = []) :
    parse_input_for_selectors d = .ok [] ∧ parse_file_contents d = .ok [] := by
  have hprod : product4 sts cps sites metrics = [] := by
    unfold product4
    rcases hempty with h | h | h | h <;> subst h <;> simp
  have hsel : parse_input_for_selectors d = .ok [] := by
    unfold parse_input_for_selectors
    rw [parse_input_full_lists hsts hcps hsites hms, hprod]
    rfl
  refine ⟨hsel, ?_⟩
  unfold parse_file_contents
  rw [hval, ebind_okv]
  exact hsel

/-- A validated document with an empty `sites` list and malformed
`duration`, `start_times` entry and `ip_translation` value. -/
def c10Doc : List (String × JValue) :=
  [("file_format_version", .jnum 11 1),
   ("duration", .jstr "not-a-duration"),
   ("metrics", .jlist [.jstr "upload_throughput"]),
   ("ip_translation", .jnum 5 0),
   ("start_times", .jlist [.jstr "garbage-timestamp"]),
   ("client_providers", .jlist [.jstr "comcast"]),
   ("sites", .jlist [])]

theorem claim_C10_witness :
    parse_input_for_selectors c10Doc = .ok [] ∧ parse_file_contents c10Doc = .ok [] :=
  claim_C10_empty_axis c10Doc [.jstr "garbage-timestamp"] [.jstr "comcast"] []
    [.jstr "upload_throughput"] rfl rfl rfl rfl rfl (.inr (.inr (.inl rfl)))

/-! ## The strict timestamp format of the spec -/

/-- The character for digit `n`. -/
def digitChar (n : ℕ) : Char := Char.ofNat (48 + n)

/-- Two-digit zero-padded rendering of `n < 100`. -/
def pad2 (n : ℕ) : List Char := [digitChar (n / 10), digitChar (n % 10)]

/-- Four-digit zero-padded rendering of `n < 10000`. -/
def pad4 (n : ℕ) : List Char :=
  [digitChar (n / 1000), digitChar (n / 100 % 10), digitChar (n / 10 % 10), digitChar (n % 10)]

/-- Modelled from the spec: the strict `YYYY-MM-DDTHH:MM:SSZ` rendering of
a naive datetime — all fields zero-padded, uppercase `T` and `Z`.  This is
the spec-side description of the accepted format, to be compared with the
scanner embedded from the source. -/
def strictTimestampString (t : NaiveDateTime) : String :=
  String.mk (pad4 t.year ++ '-' :: (pad2 t.month ++ '-' :: (pad2 t.day ++
    'T' :: (pad2 t.hour ++ ':' :: (pad2 t.minute ++ ':' :: (pad2 t.second ++ ['Z']))))))

theorem digitChar_isDigit : ∀ n, n < 10 → isDigitChar (digitChar n) = true := by decide

theorem digitVal_digitChar : ∀ n, n < 10 → digitVal (digitChar n) = n := by decide

theorem readLit_cons (c : Char) (rest : List Char) : readLit c (c :: rest) = some rest := by
  simp [readLit]

theorem readLitCI_upper (lower upper : Char) (rest : List Char) :
    readLitCI lower upper (upper :: rest) = some rest := by
  simp [readLitCI]

theorem read4Digits_pad4 {y : ℕ} (hy : y ≤ 9999) (rest : List Char) :
    read4Digits (pad4 y ++ rest) = some (y, rest) := by
  have h1 : y / 1000 < 10 := by omega
  have h2 : y / 100 % 10 < 10 := by omega
  have h3 : y / 10 % 10 < 10 := by omega
  have h4 : y % 10 < 10 := by omega
  simp only [pad4, List.cons_append, List.nil_append, read4Digits,
    digitChar_isDigit _ h1, digitChar_isDigit _ h2, digitChar_isDigit _ h3,
    digitChar_isDigit _ h4,
    digitVal_digitChar _ h1, digitVal_digitChar _ h2, digitVal_digitChar _ h3,
    digitVal_digitChar _ h4,
    Bool.and_self, if_true, Option.some.injEq, Prod.mk.injEq]
  exact ⟨by omega, trivial⟩

theorem readField_pad2 {lo2 hi2 : ℕ} {zeroOne : Bool} {v : ℕ}
    (hlo : lo2 ≤ v) (hhi : v ≤ hi2) (h99 : hi2 ≤ 99) (rest : List Char) :
    readField lo2 hi2 zeroOne (pad2 v ++ rest) = some (v, rest) := by
  have h1 : v / 10 < 10 := by omega
  have h2 : v % 10 < 10 := by omega
  have hv : 10 * (v / 10) + v % 10 = v := by omega
  simp only [pad2, List.cons_append, List.nil_append, readField,
    digitChar_isDigit _ h1, digitChar_isDigit _ h2,
    digitVal_digitChar _ h1, digitVal_digitChar _ h2,
    Bool.and_self, if_true, hv]
  rw [if_pos ⟨hlo, hhi⟩]

theorem daysInMonth_le_31 (y m : ℕ) : daysInMonth y m ≤ 31 := by
  unfold daysInMonth
  split
  · split <;> omega
  · split <;> omega

/-- The scanner embedded from the source accepts every strict-format
timestamp whose fields pass the `datetime` range check, and returns
exactly those fields. -/
theorem strptimeTs_strict (t : NaiveDateTime) (h : datetimeValid t = true) :
    strptimeTs (strictTimestampString t).data = some t := by
  have h' := of_decide_eq_true h
  obtain ⟨hy1, hy2, hm1, hm2, hd1, hd2, hh, hmi, hs⟩ := h'
  have hd31 : t.day ≤ 31 := le_trans hd2 (daysInMonth_le_31 t.year t.month)
  show strptimeTs (pad4 t.year ++ '-' :: (pad2 t.month ++ '-' :: (pad2 t.day ++
    'T' :: (pad2 t.hour ++ ':' :: (pad2 t.minute ++ ':' :: (pad2 t.second ++ ['Z'])))))) =
    some t
  unfold strptimeTs
  simp only [read4Digits_pad4 hy2, readLit_cons, readLitCI_upper,
    readField_pad2 hm1 hm2 (by omega),
    readField_pad2 hd1 hd31 (by omega),
    readField_pad2 (Nat.zero_le t.hour) hh (by omega),
    readField_pad2 (Nat.zero_le t.minute) hmi (by omega),
    readField_pad2 (Nat.zero_le t.second) (show t.second ≤ 61 by omega) (by omega),
    List.isEmpty_nil, if_true]

/-- C6 counterexample: the claim says the timestamp parser succeeds
exactly on strings of the fixed 20-character form `YYYY-MM-DDTHH:MM:SSZ`
and every deviation fails; but Python's `strptime` field patterns accept
one- or two-digit month/day/hour/minute/second, so this 19-character
string with a single-digit month parses successfully. -/
theorem claim_C6_counterexample :
    parse_start_time "2014-6-01T00:00:00Z" = .ok ⟨⟨2014, 6, 1, 0, 0, 0⟩, 0⟩ ∧
    "2014-6-01T00:00:00Z".length = 19 :=
  ⟨rfl, rfl⟩

/-- C6 (amended): the timestamp parser accepts every strict
`YYYY-MM-DDTHH:MM:SSZ` string with in-range fields and returns the
UTC-normalized time with explicit zero offset — but also accepts lenient
variants (one- or two-digit fields, lowercase `t`/`z`); every successful
parse carries UTC offset zero, and deviations such as a space separator
fail with `UnsupportedTimestampFormat`. -/
theorem claim_C6_amended :
    (∀ t : NaiveDateTime, datetimeValid t = true →
      parse_start_time (strictTimestampString t) = .ok ⟨t, 0⟩) ∧
    (∀ (s : String) (r : AwareDateTime),
      parse_start_time s = .ok r → r.utcOffsetMinutes = 0) ∧
    parse_start_time "2014-06-01 00:00:00" = .error .UnsupportedTimestampFormat := by
  refine ⟨fun t h => ?_, fun s r hr => ?_, rfl⟩
  · unfold parse_start_time
    rw [strptimeTs_strict t h]
    have h2 : (if datetimeValid t then
        (.ok (make_datetime_utc_aware t) : Except TError AwareDateTime)
        else .error .UnsupportedTimestampFormat) = .ok ⟨t, 0⟩ := by
      rw [if_pos h]
      rfl
    exact h2
  · unfold parse_start_time at hr
    cases hst : strptimeTs s.data with
    | none =>
      rw [hst] at hr
      exact Except.noConfusion hr
    | some t =>
      rw [hst] at hr
      have h2 : (if datetimeValid t then
          (.ok (make_datetime_utc_aware t) : Except TError AwareDateTime)
          else .error .UnsupportedTimestampFormat) = .ok r := hr
      by_cases hv : datetimeValid t = true
      · rw [if_pos hv] at h2
        rw [← Except.ok.inj h2]
        rfl
      · rw [if_neg hv] at h2
        exact Except.noConfusion h2

theorem claim_C6_witness :
    parse_start_time (strictTimestampString ⟨2014, 6, 1, 0, 0, 0⟩) =
      .ok ⟨⟨2014, 6, 1, 0, 0, 0⟩, 0⟩ :=
  claim_C6_amended.1 ⟨2014, 6, 1, 0, 0, 0⟩ (by decide)

example : parse_duration "" = .error .NoDurationSpecified := rfl
example : parse_duration "5x" = .error .UnsupportedDurationUnit := rfl
example : parse_duration "-5d" = .ok (.pfloat 432000) := by decide
example : parse_duration "1d" = .ok (.pfloat 86400) := by decide
example : parse_duration "4s" = .ok (.pint 4) := by decide
example : (parse_duration "1d2h3m4s").map PyNum.val = .ok 93784 := by decide
example : (parse_duration "7d").map PyNum.val = .ok 604800 := by decide
